import Mathlib

/-!
# Formal model of the ShareX settlement dashboard's validation and edit logic

Shallow embedding of the settlement review page
(`web/dashboard/src/app/projects/settlement/[id]/page.tsx`) and the data
model it consumes (`web/dashboard/src/lib/api.ts`).

Monetary amounts and ratios are JavaScript `number`s in the source; they are
modelled as exact rationals (`ℚ`).  `Math.round` is modelled by `jsRound`
(round half toward positive infinity).  `formatCurrency` (an
`Intl.NumberFormat` call in `lib/format.ts`) is modelled by a plain numeral
printer; validation messages are built from the same values with the same
surrounding text as in the source.
-/

/-- One per-course line of a company settlement (interface `CourseSummary`
in `lib/api.ts`).  The display-only `section` field is renamed
`sectionName` (`section` is a Lean keyword); the optional display-only
`monthly_revenue` map is omitted. -/
structure CourseSummary where
  course_id : String
  course_name : String
  revenue : ℚ
  ad_cost : ℚ
  contribution : ℚ
  revenue_share : ℚ
  sectionName : String
  rs_ratio : ℚ
  deriving DecidableEq, Repr

/-- A per-company settlement record (interface `CompanySettlement` in
`lib/api.ts`).  Note: the record carries a single payout ratio,
`union_payout_ratio`; there is no `revenue_share_ratio` field on it. -/
structure CompanySettlement where
  company_name : String
  revenue : ℚ
  ad_cost : ℚ
  contribution : ℚ
  revenue_share : ℚ
  settlement_amount : ℚ
  union_payout : ℚ
  union_payout_ratio : ℚ
  courses : List CourseSummary
  deriving DecidableEq, Repr

/-- A cross-validation discrepancy record (interface `ValidationIssue` in
`page.tsx`): field name, expected value, actual value, signed difference,
human-readable message. -/
structure ValidationIssue where
  field : String
  expected : ℚ
  actual : ℚ
  diff : ℚ
  message : String
  deriving DecidableEq, Repr

/-- Stand-in for `formatCurrency` of `lib/format.ts` (an
`Intl.NumberFormat('ko-KR', currency KRW)` rendering).  The exact locale
text is irrelevant to the logic; what matters is that messages are plain
functions of the numeric values, which this preserves. -/
def formatCurrency (v : ℚ) : String :=
  toString v

/-- JavaScript `Math.round`: the nearest integer, ties rounded toward
positive infinity (`Math.round(0.5) = 1`, `Math.round(-0.5) = 0`). -/
def jsRound (x : ℚ) : ℤ :=
  (x + 1/2).floor

theorem jsRound_eq_floor (x : ℚ) : jsRound x = ⌊x + 1/2⌋ := rfl

/-- Embeds `s.courses.reduce((acc, c) => acc + (c.revenue ?? 0), 0)`. -/
def sumRevenue (courses : List CourseSummary) : ℚ :=
  courses.foldl (fun acc c => acc + c.revenue) 0

/-- Embeds `s.courses.reduce((acc, c) => acc + (c.ad_cost ?? 0), 0)`. -/
def sumAdCost (courses : List CourseSummary) : ℚ :=
  courses.foldl (fun acc c => acc + c.ad_cost) 0

/-- Embeds `s.courses.reduce((acc, c) => acc + (c.contribution ?? 0), 0)`. -/
def sumContribution (courses : List CourseSummary) : ℚ :=
  courses.foldl (fun acc c => acc + c.contribution) 0

/-- Embeds `const threshold = 2` (the comment in the source reads: ±2원 허용, 반올림 오차). -/
def threshold : ℚ := 2

/-- Check 1 of `validateSettlement`: per-course revenue sum vs. the
company total (`page.tsx` lines 55–63). -/
def revenueSumCheck (s : CompanySettlement) : List ValidationIssue :=
  if |sumRevenue s.courses - s.revenue| > threshold then
    [{ field := "매출액"
       expected := s.revenue
       actual := sumRevenue s.courses
       diff := sumRevenue s.courses - s.revenue
       message := "강의별 매출액 합산(" ++ formatCurrency (sumRevenue s.courses) ++
         ")이 회사 합계(" ++ formatCurrency s.revenue ++ ")와 " ++
         formatCurrency |sumRevenue s.courses - s.revenue| ++ "원 차이납니다." }]
  else []

/-- Check 2 of `validateSettlement`: per-course ad-cost sum vs. the
company total (`page.tsx` lines 65–73). -/
def adCostSumCheck (s : CompanySettlement) : List ValidationIssue :=
  if |sumAdCost s.courses - s.ad_cost| > threshold then
    [{ field := "마케팅비"
       expected := s.ad_cost
       actual := sumAdCost s.courses
       diff := sumAdCost s.courses - s.ad_cost
       message := "강의별 마케팅비 합산(" ++ formatCurrency (sumAdCost s.courses) ++
         ")이 회사 합계(" ++ formatCurrency s.ad_cost ++ ")와 " ++
         formatCurrency |sumAdCost s.courses - s.ad_cost| ++ "원 차이납니다." }]
  else []

/-- Check 3 of `validateSettlement`: per-course contribution sum vs. the
company total (`page.tsx` lines 75–83). -/
def contributionSumCheck (s : CompanySettlement) : List ValidationIssue :=
  if |sumContribution s.courses - s.contribution| > threshold then
    [{ field := "공헌이익"
       expected := s.contribution
       actual := sumContribution s.courses
       diff := sumContribution s.courses - s.contribution
       message := "강의별 공헌이익 합산(" ++ formatCurrency (sumContribution s.courses) ++
         ")이 회사 합계(" ++ formatCurrency s.contribution ++ ")와 " ++
         formatCurrency |sumContribution s.courses - s.contribution| ++ "원 차이납니다." }]
  else []

/-- Check 4 of `validateSettlement`: total contribution vs.
`revenue - ad_cost` (`page.tsx` lines 85–95). -/
def contributionFormulaCheck (s : CompanySettlement) : List ValidationIssue :=
  if |(s.revenue - s.ad_cost) - s.contribution| > threshold then
    [{ field := "공헌이익 공식"
       expected := s.revenue - s.ad_cost
       actual := s.contribution
       diff := s.contribution - (s.revenue - s.ad_cost)
       message := "공헌이익(" ++ formatCurrency s.contribution ++ ")이 \"매출액 - 마케팅비\"(" ++
         formatCurrency (s.revenue - s.ad_cost) ++
         ")와 일치하지 않습니다. 제작비 등 추가 비용이 포함되었을 수 있습니다." }]
  else []

/-- Check 5 of `validateSettlement`: settlement amount vs.
`Math.round(s.contribution * s.union_payout_ratio)` (`page.tsx`
lines 97–107).  The single ratio stored on the record is applied. -/
def settlementAmountCheck (s : CompanySettlement) : List ValidationIssue :=
  if |(jsRound (s.contribution * s.union_payout_ratio) : ℚ) - s.settlement_amount| > threshold then
    [{ field := "수익쉐어 금액"
       expected := (jsRound (s.contribution * s.union_payout_ratio) : ℚ)
       actual := s.settlement_amount
       diff := s.settlement_amount - (jsRound (s.contribution * s.union_payout_ratio) : ℚ)
       message := "수익쉐어(" ++ formatCurrency s.settlement_amount ++ ")가 \"공헌이익 × " ++
         toString (jsRound (s.union_payout_ratio * 100)) ++ "%\"(" ++
         formatCurrency (jsRound (s.contribution * s.union_payout_ratio) : ℚ) ++ ")와 " ++
         formatCurrency |s.settlement_amount - (jsRound (s.contribution * s.union_payout_ratio) : ℚ)| ++
         "원 차이납니다." }]
  else []

/-- The per-course body of check 6 of `validateSettlement`: course
contribution vs. `revenue - ad_cost` (`page.tsx` lines 109–121). -/
def courseIssue (c : CourseSummary) : List ValidationIssue :=
  if |(c.revenue - c.ad_cost) - c.contribution| > threshold then
    [{ field := "[" ++ c.course_name ++ "] 공헌이익"
       expected := c.revenue - c.ad_cost
       actual := c.contribution
       diff := c.contribution - (c.revenue - c.ad_cost)
       message := "\"" ++ c.course_name ++ "\" 강의의 공헌이익(" ++
         formatCurrency c.contribution ++ ")이 \"매출-마케팅비\"(" ++
         formatCurrency (c.revenue - c.ad_cost) ++ ")와 불일치합니다." }]
  else []

/-- Check 6 of `validateSettlement`, over all courses
(`s.courses.forEach` in the source pushes issues in course order). -/
def courseContributionCheck (s : CompanySettlement) : List ValidationIssue :=
  (s.courses.map courseIssue).flatten

/-- Embeds `validateSettlement` (`page.tsx` lines 46–124): the cross-validator.
The source pushes issues into one array check by check; the result is the
in-order concatenation of the six checks' issues. -/
def validateSettlement (s : CompanySettlement) : List ValidationIssue :=
  revenueSumCheck s ++ adCostSumCheck s ++ contributionSumCheck s ++
    contributionFormulaCheck s ++ settlementAmountCheck s ++ courseContributionCheck s

/-- The two editable per-course fields of `handleEditCourse`
(`"revenue" | "ad_cost"` in `page.tsx`). -/
inductive EditField where
  | revenue
  | ad_cost
  deriving DecidableEq, Repr

/-- Embeds `course[field] = value` in `handleEditCourse`. -/
def setEditField (c : CourseSummary) (f : EditField) (value : ℚ) : CourseSummary :=
  match f with
  | .revenue => { c with revenue := value }
  | .ad_cost => { c with ad_cost := value }

/-- Embeds `handleEditCourse` (`page.tsx` lines 178–188): copy the course at
`idx`, overwrite the edited field, and recompute
`course.contribution = course.revenue - course.ad_cost`. -/
def editCourse (courses : List CourseSummary) (idx : ℕ) (f : EditField) (value : ℚ) :
    List CourseSummary :=
  match courses.get? idx with
  | none => courses
  | some c =>
    let c1 := setEditField c f value
    let c2 := { c1 with contribution := c1.revenue - c1.ad_cost }
    courses.set idx c2

/-- The settlement-recompute core of `handleApplyEdits` (`page.tsx`
lines 191–216): totals are re-summed from the edited courses, the
settlement amount is `Math.round(newContribution * ratio)` with
`ratio = settlement.union_payout_ratio`, and each course's
`revenue_share` is `Math.round(c.contribution * ratio)`. -/
def applyEditsSettlement (settlement : CompanySettlement)
    (editCourses : List CourseSummary) : CompanySettlement :=
  let ratio := settlement.union_payout_ratio
  let newRevenue := editCourses.foldl (fun acc c => acc + c.revenue) 0
  let newAdCost := editCourses.foldl (fun acc c => acc + c.ad_cost) 0
  let newContribution := editCourses.foldl (fun acc c => acc + c.contribution) 0
  let newSettlementAmount : ℚ := (jsRound (newContribution * ratio) : ℚ)
  let updatedCourses := editCourses.map fun c =>
    { c with revenue_share := (jsRound (c.contribution * ratio) : ℚ) }
  { settlement with
    revenue := newRevenue
    ad_cost := newAdCost
    contribution := newContribution
    settlement_amount := newSettlementAmount
    union_payout := newSettlementAmount
    revenue_share := updatedCourses.foldl (fun acc c => acc + c.revenue_share) 0
    courses := updatedCourses }

/-- The `summary` object of a parse response (`ParseResponse` in
`lib/api.ts`), restricted to the four totals `handleApplyEdits`
recomputes. -/
structure Summary where
  total_revenue : ℚ
  total_ad_cost : ℚ
  total_contribution : ℚ
  total_settlement : ℚ
  deriving DecidableEq, Repr

/-- The parse response (`ParseResponse` in `lib/api.ts`), restricted to
the fields `handleApplyEdits` touches.  The `companies` object is
modelled as an association list in key-insertion order (JavaScript
object keys are unique and iterate in insertion order). -/
structure ParseResponse where
  period : String
  companies : List (String × CompanySettlement)
  summary : Summary
  deriving DecidableEq, Repr

/-- Embeds the spread update `...fullData.companies` plus `[companyId]: updatedSettlement`: if the
key is present its value is replaced in place (insertion order kept),
otherwise the key is appended. -/
def setCompany (companies : List (String × CompanySettlement)) (companyId : String)
    (s : CompanySettlement) : List (String × CompanySettlement) :=
  if companies.any (fun p => p.1 == companyId) then
    companies.map (fun p => if p.1 == companyId then (companyId, s) else p)
  else
    companies ++ [(companyId, s)]

/-- Embeds `fullData.companies[id]`: the first value stored under `id`. -/
def lookupCompany (companies : List (String × CompanySettlement)) (id : String) :
    Option CompanySettlement :=
  (companies.find? (fun p => p.1 == id)).map (fun p => p.2)

/-- The `fullData` update of `handleApplyEdits` (`page.tsx`
lines 218–231): the edited company's record is replaced in the
companies map and each summary total is re-summed with
`Object.values(updatedCompanies).reduce(...)`. -/
def applyEditsFullData (fullData : ParseResponse) (companyId : String)
    (updatedSettlement : CompanySettlement) : ParseResponse :=
  let updatedCompanies := setCompany fullData.companies companyId updatedSettlement
  { fullData with
    companies := updatedCompanies
    summary :=
      { fullData.summary with
        total_revenue := updatedCompanies.foldl (fun acc p => acc + p.2.revenue) 0
        total_ad_cost := updatedCompanies.foldl (fun acc p => acc + p.2.ad_cost) 0
        total_contribution := updatedCompanies.foldl (fun acc p => acc + p.2.contribution) 0
        total_settlement := updatedCompanies.foldl (fun acc p => acc + p.2.settlement_amount) 0 } }

/-- The page state written by `handleApplyEdits` (`setSettlement`,
`setFullData`, `setValidationIssues`). -/
structure PageState where
  settlement : CompanySettlement
  fullData : ParseResponse
  validationIssues : List ValidationIssue
  deriving DecidableEq, Repr

/-- Embeds `handleApplyEdits` (`page.tsx` lines 191–240) as a function of the
state it reads: it recomputes the company settlement from the edited
courses, rebuilds `fullData`, and re-runs the cross-validator on the
updated settlement. -/
def handleApplyEdits (settlement : CompanySettlement) (fullData : ParseResponse)
    (companyId : String) (editCourses : List CourseSummary) : PageState :=
  let updatedSettlement := applyEditsSettlement settlement editCourses
  let updatedFullData := applyEditsFullData fullData companyId updatedSettlement
  { settlement := updatedSettlement
    fullData := updatedFullData
    validationIssues := validateSettlement updatedSettlement }

/-- Modelled from the spec (§4.3): the settlement amount the spec
prescribes, `round(total margin × revenue_share_ratio ×
union_payout_ratio)` — the full payout ratio chain.  Stated with the
code's rounding so that any disagreement with the code isolates the
ratio chain itself. -/
def specRatioChainSettlement (margin rs_ratio upr : ℚ) : ℤ :=
  jsRound (margin * rs_ratio * upr)

/-- Modelled from the spec (§4.3): round-half-to-even (banker's
rounding) to the currency minor unit. -/
def roundHalfEven (x : ℚ) : ℤ :=
  let f := ⌊x⌋
  if x - f < 1/2 then f
  else if x - f > 1/2 then f + 1
  else if f % 2 = 0 then f else f + 1

/-! ## Helper lemmas -/

theorem foldl_add_eq_sum {α : Type} (f : α → ℚ) (l : List α) (init : ℚ) :
    l.foldl (fun acc c => acc + f c) init = init + (l.map f).sum := by
  induction l generalizing init with
  | nil => simp
  | cons a t ih => simp [List.foldl, ih (init + f a)]; ring

theorem sumRevenue_eq_sum (l : List CourseSummary) :
    sumRevenue l = (l.map (fun c => c.revenue)).sum := by
  simpa using foldl_add_eq_sum (fun c => c.revenue) l 0

theorem sumAdCost_eq_sum (l : List CourseSummary) :
    sumAdCost l = (l.map (fun c => c.ad_cost)).sum := by
  simpa using foldl_add_eq_sum (fun c => c.ad_cost) l 0

theorem sumContribution_eq_sum (l : List CourseSummary) :
    sumContribution l = (l.map (fun c => c.contribution)).sum := by
  simpa using foldl_add_eq_sum (fun c => c.contribution) l 0

theorem sumContribution_of_consistent (l : List CourseSummary)
    (h : ∀ c ∈ l, c.contribution = c.revenue - c.ad_cost) :
    sumContribution l = sumRevenue l - sumAdCost l := by
  rw [sumRevenue_eq_sum, sumAdCost_eq_sum, sumContribution_eq_sum]
  induction l with
  | nil => simp
  | cons a t ih =>
    have ha := h a (List.mem_cons_self a t)
    have ht := ih (fun c hc => h c (List.mem_cons_of_mem a hc))
    simp [ha, ht]
    ring

theorem jsRound_mono {x y : ℚ} (h : x ≤ y) : jsRound x ≤ jsRound y := by
  rw [jsRound_eq_floor, jsRound_eq_floor]
  exact Int.floor_le_floor (by linarith)

theorem abs_sub_jsRound_le (x : ℚ) : |x - (jsRound x : ℚ)| ≤ 1/2 := by
  rw [jsRound_eq_floor]
  have h1 : ((⌊x + 1/2⌋ : ℤ) : ℚ) ≤ x + 1/2 := Int.floor_le _
  have h2 : x + 1/2 < (⌊x + 1/2⌋ : ℤ) + 1 := Int.lt_floor_add_one _
  rw [abs_le]
  constructor <;> push_cast at h2 ⊢ <;> linarith

theorem flatten_map_eq_nil {α β : Type} {l : List α} {f : α → List β}
    (h : ∀ a ∈ l, f a = []) : (l.map f).flatten = [] := by
  induction l with
  | nil => rfl
  | cons a t ih =>
    simp only [List.map_cons, List.flatten_cons, h a (List.mem_cons_self a t),
      List.nil_append]
    exact ih (fun b hb => h b (List.mem_cons_of_mem a hb))

theorem sum_map_set {α : Type} (f : α → ℚ) :
    ∀ (l : List α) (i : ℕ) (x c : α), l.get? i = some c →
      ((l.set i x).map f).sum = (l.map f).sum - f c + f x := by
  intro l
  induction l with
  | nil => intro i x c h; simp at h
  | cons a t ih =>
    intro i x c h
    cases i with
    | zero =>
      simp only [List.get?] at h
      injection h with h
      subst h
      simp [List.set]
      ring
    | succ n =>
      simp only [List.get?] at h
      show ((a :: t.set n x).map f).sum = _
      simp only [List.map_cons, List.sum_cons, ih n x c h]
      ring

theorem revenueSumCheck_length (s : CompanySettlement) :
    (revenueSumCheck s).length =
      if |sumRevenue s.courses - s.revenue| > threshold then 1 else 0 := by
  unfold revenueSumCheck
  split <;> simp_all

theorem adCostSumCheck_length (s : CompanySettlement) :
    (adCostSumCheck s).length =
      if |sumAdCost s.courses - s.ad_cost| > threshold then 1 else 0 := by
  unfold adCostSumCheck
  split <;> simp_all

theorem contributionSumCheck_length (s : CompanySettlement) :
    (contributionSumCheck s).length =
      if |sumContribution s.courses - s.contribution| > threshold then 1 else 0 := by
  unfold contributionSumCheck
  split <;> simp_all

theorem contributionFormulaCheck_length (s : CompanySettlement) :
    (contributionFormulaCheck s).length =
      if |(s.revenue - s.ad_cost) - s.contribution| > threshold then 1 else 0 := by
  unfold contributionFormulaCheck
  split <;> simp_all

theorem settlementAmountCheck_length (s : CompanySettlement) :
    (settlementAmountCheck s).length =
      if |(jsRound (s.contribution * s.union_payout_ratio) : ℚ) - s.settlement_amount| > threshold
      then 1 else 0 := by
  unfold settlementAmountCheck
  split <;> simp_all

theorem courseContributionCheck_length (s : CompanySettlement) :
    (courseContributionCheck s).length =
      s.courses.countP (fun c => |(c.revenue - c.ad_cost) - c.contribution| > threshold) := by
  unfold courseContributionCheck
  induction s.courses with
  | nil => rfl
  | cons a t ih =>
    simp only [List.map_cons, List.flatten_cons, List.length_append, ih, List.countP_cons]
    unfold courseIssue
    split <;> rename_i hcond <;> simp [hcond, Nat.add_comm]

theorem revenueSumCheck_ne_nil_iff (s : CompanySettlement) :
    revenueSumCheck s ≠ [] ↔ |sumRevenue s.courses - s.revenue| > threshold := by
  unfold revenueSumCheck
  split <;> simp_all

theorem adCostSumCheck_ne_nil_iff (s : CompanySettlement) :
    adCostSumCheck s ≠ [] ↔ |sumAdCost s.courses - s.ad_cost| > threshold := by
  unfold adCostSumCheck
  split <;> simp_all

theorem contributionSumCheck_ne_nil_iff (s : CompanySettlement) :
    contributionSumCheck s ≠ [] ↔ |sumContribution s.courses - s.contribution| > threshold := by
  unfold contributionSumCheck
  split <;> simp_all

theorem find?_replace_ne (l : List (String × CompanySettlement)) (companyId id : String)
    (s' : CompanySettlement) (h : id ≠ companyId) :
    (l.map (fun p => if p.1 == companyId then (companyId, s') else p)).find?
        (fun p => p.1 == id) =
      l.find? (fun p => p.1 == id) := by
  induction l with
  | nil => rfl
  | cons p t ih =>
    by_cases hp : p.1 = companyId
    · have h3 : p.1 ≠ id := by
        rw [hp]
        exact Ne.symm h
      rw [List.map_cons, if_pos (by simp [hp]),
        List.find?_cons_of_neg _ (by simpa using Ne.symm h),
        List.find?_cons_of_neg _ (by simp [h3])]
      exact ih
    · rw [List.map_cons, if_neg (by simp [hp])]
      by_cases hid : p.1 = id
      · rw [List.find?_cons_of_pos _ (by simp [hid]), List.find?_cons_of_pos _ (by simp [hid])]
      · rw [List.find?_cons_of_neg _ (by simp [hid]), List.find?_cons_of_neg _ (by simp [hid])]
        exact ih

theorem lookupCompany_setCompany_ne (l : List (String × CompanySettlement))
    (companyId id : String) (s' : CompanySettlement) (h : id ≠ companyId) :
    lookupCompany (setCompany l companyId s') id = lookupCompany l id := by
  unfold setCompany lookupCompany
  split
  · rw [find?_replace_ne l companyId id s' h]
  · rw [List.find?_append]
    have h2 : ([(companyId, s')].find? (fun p => p.1 == id)) = none := by
      rw [List.find?_cons_of_neg _ (by simpa using Ne.symm h)]
      rfl
    rw [h2]
    cases l.find? (fun p => p.1 == id) <;> rfl

theorem lookupCompany_setCompany_self (l : List (String × CompanySettlement))
    (companyId : String) (s' : CompanySettlement) :
    lookupCompany (setCompany l companyId s') companyId = some s' := by
  unfold setCompany lookupCompany
  split
  · rename_i hany
    rw [List.any_eq_true] at hany
    obtain ⟨p, hp, hpe⟩ := hany
    induction l with
    | nil => simp at hp
    | cons q t ih =>
      by_cases hq : q.1 = companyId
      · rw [List.map_cons, if_pos (by simp [hq]), List.find?_cons_of_pos _ (by simp)]
        rfl
      · rcases List.mem_cons.mp hp with hpq | hpt
        · subst hpq
          rw [beq_iff_eq] at hpe
          exact absurd hpe hq
        · rw [List.map_cons, if_neg (by simp [hq]), List.find?_cons_of_neg _ (by simp [hq])]
          exact ih hpt
  · rw [List.find?_append]
    rename_i hany
    have hnone : l.find? (fun p => p.1 == companyId) = none := by
      rw [List.find?_eq_none]
      intro p hp
      simp only [List.any_eq_true, not_exists] at hany
      intro hc
      exact hany p ⟨hp, hc⟩
    rw [hnone, List.find?_cons_of_pos _ (by simp)]
    rfl

theorem applyEditsSettlement_contribution (s : CompanySettlement) (cs : List CourseSummary) :
    (applyEditsSettlement s cs).contribution = sumContribution cs := rfl

theorem applyEditsSettlement_revenue (s : CompanySettlement) (cs : List CourseSummary) :
    (applyEditsSettlement s cs).revenue = sumRevenue cs := rfl

theorem applyEditsSettlement_ad_cost (s : CompanySettlement) (cs : List CourseSummary) :
    (applyEditsSettlement s cs).ad_cost = sumAdCost cs := rfl

theorem applyEditsSettlement_settlement_amount (s : CompanySettlement)
    (cs : List CourseSummary) :
    (applyEditsSettlement s cs).settlement_amount =
      (jsRound (sumContribution cs * s.union_payout_ratio) : ℚ) := rfl

theorem editCourse_invariant (cs : List CourseSummary) (idx : ℕ) (f : EditField) (v : ℚ)
    (h : ∀ c ∈ cs, c.contribution = c.revenue - c.ad_cost) :
    ∀ c' ∈ editCourse cs idx f v, c'.contribution = c'.revenue - c'.ad_cost := by
  intro c' hc'
  unfold editCourse at hc'
  cases hg : cs.get? idx with
  | none => rw [hg] at hc'; exact h c' hc'
  | some c =>
    rw [hg] at hc'
    rcases List.mem_or_eq_of_mem_set hc' with hmem | heq
    · exact h c' hmem
    · subst heq; rfl

theorem sumContribution_editCourse_revenue (cs : List CourseSummary) (idx : ℕ) (v : ℚ)
    (c : CourseSummary) (h : cs.get? idx = some c) :
    sumContribution (editCourse cs idx .revenue v) =
      sumContribution cs - c.contribution + (v - c.ad_cost) := by
  unfold editCourse
  rw [h]
  rw [sumContribution_eq_sum, sumContribution_eq_sum]
  rw [sum_map_set (fun c => c.contribution) cs idx _ c h]
  rfl

theorem settlementAmountCheck_ne_nil_iff (s : CompanySettlement) :
    settlementAmountCheck s ≠ [] ↔
      |(jsRound (s.contribution * s.union_payout_ratio) : ℚ) - s.settlement_amount| >
        threshold := by
  unfold settlementAmountCheck
  split <;> simp_all

theorem courseContributionCheck_eq_nil (s : CompanySettlement)
    (h : ∀ c ∈ s.courses, c.contribution = c.revenue - c.ad_cost) :
    courseContributionCheck s = [] := by
  unfold courseContributionCheck
  apply flatten_map_eq_nil
  intro c hc
  unfold courseIssue
  rw [if_neg]
  rw [h c hc, sub_self, abs_zero]
  norm_num [threshold]

/-! ## The claims -/

/-- C4: the cross-validator's checks are independent and all evaluated,
never short-circuited: the issue list is the in-order concatenation of the
six checks' outputs, and each check contributes exactly one issue when (and
only when) its own discrepancy exceeds the tolerance — one per offending
course for the per-course check — regardless of the other checks. -/
theorem validator_checks_independent_all_evaluated (s : CompanySettlement) :
    validateSettlement s =
      revenueSumCheck s ++ adCostSumCheck s ++ contributionSumCheck s ++
        contributionFormulaCheck s ++ settlementAmountCheck s ++ courseContributionCheck s ∧
    (revenueSumCheck s).length =
      (if |sumRevenue s.courses - s.revenue| > threshold then 1 else 0) ∧
    (adCostSumCheck s).length =
      (if |sumAdCost s.courses - s.ad_cost| > threshold then 1 else 0) ∧
    (contributionSumCheck s).length =
      (if |sumContribution s.courses - s.contribution| > threshold then 1 else 0) ∧
    (contributionFormulaCheck s).length =
      (if |(s.revenue - s.ad_cost) - s.contribution| > threshold then 1 else 0) ∧
    (settlementAmountCheck s).length =
      (if |(jsRound (s.contribution * s.union_payout_ratio) : ℚ) - s.settlement_amount| >
          threshold then 1 else 0) ∧
    (courseContributionCheck s).length =
      s.courses.countP (fun c => |(c.revenue - c.ad_cost) - c.contribution| > threshold) :=
  ⟨rfl, revenueSumCheck_length s, adCostSumCheck_length s, contributionSumCheck_length s,
    contributionFormulaCheck_length s, settlementAmountCheck_length s,
    courseContributionCheck_length s⟩

/-- C5: the partner-total reconciliation checks use a strict tolerance of
2 currency minor units: a revenue (resp. cost, margin) sum issue is
produced iff the absolute difference between the per-course sum and the
company total is strictly greater than 2; a difference of exactly 2
produces no issue. -/
theorem reconciliation_tolerance_two_minor_units (s : CompanySettlement) :
    (revenueSumCheck s ≠ [] ↔ |sumRevenue s.courses - s.revenue| > 2) ∧
    (adCostSumCheck s ≠ [] ↔ |sumAdCost s.courses - s.ad_cost| > 2) ∧
    (contributionSumCheck s ≠ [] ↔ |sumContribution s.courses - s.contribution| > 2) ∧
    (|sumRevenue s.courses - s.revenue| = 2 → revenueSumCheck s = []) ∧
    (|sumAdCost s.courses - s.ad_cost| = 2 → adCostSumCheck s = []) ∧
    (|sumContribution s.courses - s.contribution| = 2 → contributionSumCheck s = []) := by
  refine ⟨?_, ?_, ?_, ?_, ?_, ?_⟩
  · simpa [threshold] using revenueSumCheck_ne_nil_iff s
  · simpa [threshold] using adCostSumCheck_ne_nil_iff s
  · simpa [threshold] using contributionSumCheck_ne_nil_iff s
  · intro h
    by_contra hne
    have h2 := (revenueSumCheck_ne_nil_iff s).mp hne
    rw [h] at h2
    norm_num [threshold] at h2
  · intro h
    by_contra hne
    have h2 := (adCostSumCheck_ne_nil_iff s).mp hne
    rw [h] at h2
    norm_num [threshold] at h2
  · intro h
    by_contra hne
    have h2 := (contributionSumCheck_ne_nil_iff s).mp hne
    rw [h] at h2
    norm_num [threshold] at h2

/-- A settlement whose three totals each differ from the (empty) per-course
sums by exactly 2 minor units. -/
def sTolerance : CompanySettlement :=
  { company_name := "경계값", revenue := 2, ad_cost := 2, contribution := 2,
    revenue_share := 0, settlement_amount := 1, union_payout := 1,
    union_payout_ratio := 1/2, courses := [] }

/-- Witness for C5: at a concrete settlement whose revenue total differs
from the per-course sum by exactly 2, no revenue issue is produced. -/
theorem reconciliation_tolerance_two_minor_units_witness :
    revenueSumCheck sTolerance = [] :=
  (reconciliation_tolerance_two_minor_units sTolerance).2.2.2.1
    (by norm_num [sTolerance, sumRevenue, List.foldl])

/-- C6: conservation as an exact algebraic identity: when every per-course
entry's contribution is its revenue minus its cost (as `handleEditCourse`
re-establishes on every edit), the recomputed company contribution equals
the recomputed revenue minus the recomputed cost, exactly; and every list
produced by `handleEditCourse` preserves the per-course identity. -/
theorem margin_conservation (s : CompanySettlement) (cs : List CourseSummary)
    (h : ∀ c ∈ cs, c.contribution = c.revenue - c.ad_cost) :
    (applyEditsSettlement s cs).contribution =
      (applyEditsSettlement s cs).revenue - (applyEditsSettlement s cs).ad_cost ∧
    (∀ (idx : ℕ) (f : EditField) (v : ℚ),
      ∀ c' ∈ editCourse cs idx f v, c'.contribution = c'.revenue - c'.ad_cost) := by
  constructor
  · rw [applyEditsSettlement_contribution, applyEditsSettlement_revenue,
      applyEditsSettlement_ad_cost]
    exact sumContribution_of_consistent cs h
  · intro idx f v c' hc'
    exact editCourse_invariant cs idx f v h c' hc'

/-- A consistent two-course list for the conservation witness. -/
def csConserve : List CourseSummary :=
  [{ course_id := "a", course_name := "강의A", revenue := 1000, ad_cost := 300,
     contribution := 700, revenue_share := 350, sectionName := "", rs_ratio := 1/2 },
   { course_id := "b", course_name := "강의B", revenue := 2000, ad_cost := 500,
     contribution := 1500, revenue_share := 750, sectionName := "", rs_ratio := 1/2 }]

/-- A company record used as the base of several edit-recompute witnesses. -/
def sBase : CompanySettlement :=
  { company_name := "기본", revenue := 0, ad_cost := 0, contribution := 0,
    revenue_share := 0, settlement_amount := 0, union_payout := 0,
    union_payout_ratio := 1/2, courses := [] }

/-- Witness for C6 at a concrete consistent course list. -/
theorem margin_conservation_witness :
    (applyEditsSettlement sBase csConserve).contribution =
      (applyEditsSettlement sBase csConserve).revenue -
        (applyEditsSettlement sBase csConserve).ad_cost :=
  (margin_conservation sBase csConserve (by
    intro c hc
    rcases List.mem_cons.mp hc with h1 | hc2
    · subst h1; norm_num [csConserve]
    · rcases List.mem_cons.mp hc2 with h2 | h3
      · subst h2; norm_num [csConserve]
      · simp at h3)).1

/-- C7: monotonicity of the recomputed settlement amount: with a
non-negative payout ratio, raising the revenue of one course through
`handleEditCourse` (which recomputes that course's contribution) while
everything else is held fixed never decreases the settlement amount
recomputed by `handleApplyEdits`. -/
theorem settlement_monotone_in_course_revenue (s : CompanySettlement)
    (cs : List CourseSummary) (idx : ℕ) (v v' : ℚ) (c : CourseSummary)
    (hratio : 0 ≤ s.union_payout_ratio) (hget : cs.get? idx = some c) (hv : v ≤ v') :
    (applyEditsSettlement s (editCourse cs idx .revenue v)).settlement_amount ≤
      (applyEditsSettlement s (editCourse cs idx .revenue v')).settlement_amount := by
  rw [applyEditsSettlement_settlement_amount, applyEditsSettlement_settlement_amount,
    sumContribution_editCourse_revenue cs idx v c hget,
    sumContribution_editCourse_revenue cs idx v' c hget]
  have hle : (sumContribution cs - c.contribution + (v - c.ad_cost)) * s.union_payout_ratio ≤
      (sumContribution cs - c.contribution + (v' - c.ad_cost)) * s.union_payout_ratio := by
    apply mul_le_mul_of_nonneg_right _ hratio
    linarith
  exact_mod_cast jsRound_mono hle

/-- Witness for C7: editing the single course's revenue from 100 up to 200
does not decrease the settlement amount. -/
theorem settlement_monotone_in_course_revenue_witness :
    (applyEditsSettlement sBase (editCourse csConserve 0 .revenue 100)).settlement_amount ≤
      (applyEditsSettlement sBase (editCourse csConserve 0 .revenue 200)).settlement_amount :=
  settlement_monotone_in_course_revenue sBase csConserve 0 100 200
    { course_id := "a", course_name := "강의A", revenue := 1000, ad_cost := 300,
      contribution := 700, revenue_share := 350, sectionName := "", rs_ratio := 1/2 }
    (by norm_num [sBase]) (by rfl) (by norm_num)

/-- C2 (amended): the settlement amount is the contribution sum times the
payout ratio rounded exactly once, at the final multiplication, to the
currency minor unit — no per-course share is rounded into it — but the
rounding is JavaScript `Math.round`, round half toward positive infinity,
not round-half-to-even; the rounded amount is within half a minor unit of
the exact product. -/
theorem settlement_rounded_once_half_up (s : CompanySettlement) (cs : List CourseSummary) :
    (applyEditsSettlement s cs).settlement_amount =
      (jsRound (sumContribution cs * s.union_payout_ratio) : ℚ) ∧
    |sumContribution cs * s.union_payout_ratio -
      (applyEditsSettlement s cs).settlement_amount| ≤ 1/2 ∧
    (∀ x : ℚ, jsRound x = ⌊x + 1/2⌋) := by
  refine ⟨rfl, ?_, fun x => rfl⟩
  rw [applyEditsSettlement_settlement_amount]
  exact abs_sub_jsRound_le _

/-- A single course whose contribution is one minor unit, so that the
final product lands exactly on a half. -/
def cHalf : CourseSummary :=
  { course_id := "h", course_name := "반", revenue := 1, ad_cost := 0,
    contribution := 1, revenue_share := 0, sectionName := "", rs_ratio := 1/2 }

/-- Counterexample for C2 as stated: at contribution sum 1 and payout
ratio 1/2 the code rounds the half up to 1, while round-half-to-even
(banker's rounding) yields 0 — so the settlement amount is not the
banker's rounding of the final product. -/
theorem rounding_is_half_up_not_half_even_cex :
    (applyEditsSettlement sBase [cHalf]).settlement_amount = 1 ∧
    roundHalfEven (sumContribution [cHalf] * sBase.union_payout_ratio) = 0 ∧
    (applyEditsSettlement sBase [cHalf]).settlement_amount ≠
      (roundHalfEven (sumContribution [cHalf] * sBase.union_payout_ratio) : ℚ) := by
  have hsum : sumContribution [cHalf] * sBase.union_payout_ratio = 1/2 := by
    norm_num [sumContribution, List.foldl, cHalf, sBase]
  have hfloor : (⌊(1/2 : ℚ)⌋ : ℤ) = 0 := by
    rw [Int.floor_eq_iff]
    norm_num
  have hhe : roundHalfEven (1/2 : ℚ) = 0 := by
    unfold roundHalfEven
    rw [hfloor]
    norm_num
  have hjs : jsRound (1/2 : ℚ) = 1 := by
    norm_num [jsRound_eq_floor, Int.floor_eq_iff]
  refine ⟨?_, ?_, ?_⟩
  · rw [applyEditsSettlement_settlement_amount, hsum, hjs]
    norm_num
  · rw [hsum, hhe]
  · rw [applyEditsSettlement_settlement_amount, hsum, hjs, hhe]
    norm_num

/-- C1 (amended): both the validator's expected settlement (check 5) and
the recomputed settlement amount after an edit apply only the single
`union_payout_ratio` stored on the settlement record —
`round(total margin × union_payout_ratio)`, with no
`revenue_share_ratio` factor — and for a zero payout ratio (the operating
entity) the settlement amount is 0 while the total contribution margin is
still reported. -/
theorem settlement_amount_single_ratio (s : CompanySettlement) (cs : List CourseSummary) :
    (applyEditsSettlement s cs).settlement_amount =
      (jsRound ((applyEditsSettlement s cs).contribution * s.union_payout_ratio) : ℚ) ∧
    (settlementAmountCheck s ≠ [] ↔
      |(jsRound (s.contribution * s.union_payout_ratio) : ℚ) - s.settlement_amount| >
        threshold) ∧
    (s.union_payout_ratio = 0 →
      (applyEditsSettlement s cs).settlement_amount = 0 ∧
      (applyEditsSettlement s cs).contribution = sumContribution cs) := by
  refine ⟨rfl, settlementAmountCheck_ne_nil_iff s, fun h0 => ⟨?_, rfl⟩⟩
  rw [applyEditsSettlement_settlement_amount, h0, mul_zero]
  have : jsRound (0 : ℚ) = 0 := by
    norm_num [jsRound_eq_floor, Int.floor_eq_iff]
  rw [this]
  norm_num

/-- An operating-entity record: payout ratio 0. -/
def sOperator : CompanySettlement :=
  { company_name := "플러스엑스", revenue := 0, ad_cost := 0, contribution := 0,
    revenue_share := 0, settlement_amount := 0, union_payout := 0,
    union_payout_ratio := 0, courses := [] }

/-- Witness for C1 (amended), at the operating entity: after an edit
recompute over a margin-bearing course list, the settlement amount is 0
while the contribution margin is still the full course sum. -/
theorem settlement_amount_single_ratio_witness :
    (applyEditsSettlement sOperator csConserve).settlement_amount = 0 ∧
    (applyEditsSettlement sOperator csConserve).contribution =
      sumContribution csConserve :=
  (settlement_amount_single_ratio sOperator csConserve).2.2 (by norm_num [sOperator])

/-- A course list whose contribution sum is 1 000 000, for the ratio-chain
counterexample. -/
def csChain : List CourseSummary :=
  [{ course_id := "m", course_name := "강의M", revenue := 1200000, ad_cost := 200000,
     contribution := 1000000, revenue_share := 0, sectionName := "", rs_ratio := 3/4 }]

/-- The record produced by applying edits over `csChain` at payout
ratio 1/2. -/
def sChainEdited : CompanySettlement :=
  applyEditsSettlement sBase csChain

/-- The record `sChainEdited` with its settlement amount replaced by the spec's full
ratio-chain value `round(margin × 3/4 × 1/2)`. -/
def sChainSpec : CompanySettlement :=
  { sChainEdited with settlement_amount := 375000 }

/-- Counterexample for C1 as stated: with total margin 1 000 000, a
configured `revenue_share_ratio` of 3/4 (the repository's standard union
configuration) and `union_payout_ratio` 1/2, the code produces 500 000 =
round(margin × 1/2), not the ratio-chain value 375 000 =
round(margin × 3/4 × 1/2); moreover the validator's check 5 accepts the
single-ratio amount and flags the ratio-chain amount. -/
theorem ratio_chain_not_applied_cex :
    sChainEdited.settlement_amount = 500000 ∧
    specRatioChainSettlement sChainEdited.contribution (3/4) (1/2) = 375000 ∧
    sChainEdited.settlement_amount ≠
      (specRatioChainSettlement sChainEdited.contribution (3/4) (1/2) : ℚ) ∧
    settlementAmountCheck sChainEdited = [] ∧
    settlementAmountCheck sChainSpec ≠ [] := by
  have hcontrib : sChainEdited.contribution = 1000000 := by
    rw [sChainEdited, applyEditsSettlement_contribution]
    norm_num [sumContribution, List.foldl, csChain]
  have hratio : sChainEdited.union_payout_ratio = 1/2 := rfl
  have hamount : sChainEdited.settlement_amount = 500000 := by
    rw [sChainEdited, applyEditsSettlement_settlement_amount]
    have hs : sumContribution csChain * sBase.union_payout_ratio = 500000 := by
      norm_num [sumContribution, List.foldl, csChain, sBase]
    rw [hs]
    have : jsRound (500000 : ℚ) = 500000 := by
      norm_num [jsRound_eq_floor, Int.floor_eq_iff]
    rw [this]
    norm_num
  have hchain : specRatioChainSettlement sChainEdited.contribution (3/4) (1/2) = 375000 := by
    rw [hcontrib]
    unfold specRatioChainSettlement
    have hx : (1000000 : ℚ) * (3/4) * (1/2) = 375000 := by norm_num
    rw [hx]
    norm_num [jsRound_eq_floor, Int.floor_eq_iff]
  have hjs500 : jsRound ((1000000 : ℚ) * (1/2)) = 500000 := by
    norm_num [jsRound_eq_floor, Int.floor_eq_iff]
  refine ⟨hamount, hchain, ?_, ?_, ?_⟩
  · rw [hamount, hchain]
    norm_num
  · unfold settlementAmountCheck
    rw [if_neg]
    rw [hcontrib, hratio, hamount, hjs500]
    norm_num [threshold]
  · rw [settlementAmountCheck_ne_nil_iff]
    have hc2 : sChainSpec.contribution = 1000000 := hcontrib
    have hr2 : sChainSpec.union_payout_ratio = 1/2 := rfl
    have ha2 : sChainSpec.settlement_amount = 375000 := rfl
    rw [hc2, hr2, ha2, hjs500]
    norm_num [threshold]

/-- C3 (amended): a settlement whose total contribution margin is inflated
by 500 over revenue − cost, while every per-course entry is internally
consistent, the per-course revenue and cost sums match the totals, and the
settlement amount matches the (inflated) margin, makes the validator emit
exactly two issues, not one: the margin perturbation necessarily also
trips the per-course contribution-sum reconciliation.  The issues are the
contribution-sum check with signed delta −500 and the
contribution-margin-formula check with signed delta +500. -/
theorem inconsistent_margin_emits_two_issues (s : CompanySettlement)
    (h1 : ∀ c ∈ s.courses, c.contribution = c.revenue - c.ad_cost)
    (h2 : sumRevenue s.courses = s.revenue)
    (h3 : sumAdCost s.courses = s.ad_cost)
    (h4 : s.contribution = s.revenue - s.ad_cost + 500)
    (h5 : s.settlement_amount = (jsRound (s.contribution * s.union_payout_ratio) : ℚ)) :
    (validateSettlement s).map ValidationIssue.field = ["공헌이익", "공헌이익 공식"] ∧
    (validateSettlement s).map ValidationIssue.diff = [-500, 500] ∧
    (validateSettlement s).length = 2 := by
  have hsum : sumContribution s.courses = s.revenue - s.ad_cost := by
    rw [sumContribution_of_consistent s.courses h1, h2, h3]
  have hd3 : sumContribution s.courses - s.contribution = -500 := by
    rw [hsum, h4]
    ring
  have hd4 : s.contribution - (s.revenue - s.ad_cost) = 500 := by
    rw [h4]
    ring
  have e1 : revenueSumCheck s = [] := by
    unfold revenueSumCheck
    rw [if_neg]
    rw [h2, sub_self, abs_zero]
    norm_num [threshold]
  have e2 : adCostSumCheck s = [] := by
    unfold adCostSumCheck
    rw [if_neg]
    rw [h3, sub_self, abs_zero]
    norm_num [threshold]
  have hc3 : |sumContribution s.courses - s.contribution| > threshold := by
    rw [hd3]
    norm_num [threshold]
  have hc4 : |(s.revenue - s.ad_cost) - s.contribution| > threshold := by
    rw [abs_sub_comm, hd4]
    norm_num [threshold]
  have e5 : settlementAmountCheck s = [] := by
    unfold settlementAmountCheck
    rw [if_neg]
    rw [← h5, sub_self, abs_zero]
    norm_num [threshold]
  have e6 : courseContributionCheck s = [] := courseContributionCheck_eq_nil s h1
  unfold validateSettlement
  rw [e1, e2, e5, e6]
  unfold contributionSumCheck contributionFormulaCheck
  rw [if_pos hc3, if_pos hc4]
  refine ⟨?_, ?_, ?_⟩ <;> simp [hd3, hd4]

/-- A deliberately inconsistent settlement: the one course is internally
consistent (margin 800 = 1000 − 200) and the revenue/cost sums match, but
the total contribution margin 1300 exceeds revenue − cost by 500; the
settlement amount matches the inflated margin. -/
def sInflated : CompanySettlement :=
  { company_name := "불일치", revenue := 1000, ad_cost := 200, contribution := 1300,
    revenue_share := 650, settlement_amount := 650, union_payout := 650,
    union_payout_ratio := 1/2,
    courses := [{ course_id := "x", course_name := "강의X", revenue := 1000,
                  ad_cost := 200, contribution := 800, revenue_share := 400,
                  sectionName := "", rs_ratio := 1/2 }] }

/-- Witness for C3 (amended) at the concrete inconsistent settlement. -/
theorem inconsistent_margin_emits_two_issues_witness :
    (validateSettlement sInflated).map ValidationIssue.field =
      ["공헌이익", "공헌이익 공식"] ∧
    (validateSettlement sInflated).map ValidationIssue.diff = [-500, 500] ∧
    (validateSettlement sInflated).length = 2 :=
  inconsistent_margin_emits_two_issues sInflated
    (by
      intro c hc
      simp only [sInflated, List.mem_singleton] at hc
      subst hc
      norm_num)
    (by norm_num [sInflated, sumRevenue, List.foldl])
    (by norm_num [sInflated, sumAdCost, List.foldl])
    (by norm_num [sInflated])
    (by
      have : jsRound ((1300 : ℚ) * (1/2)) = 650 := by
        norm_num [jsRound_eq_floor, Int.floor_eq_iff]
      rw [show sInflated.contribution * sInflated.union_payout_ratio =
        (1300 : ℚ) * (1/2) from rfl, this]
      norm_num [sInflated])

/-- Counterexample for C3 as stated: on the deliberately inconsistent
settlement (margin off by 500, everything else consistent) the validator
emits two issues, not exactly one — the margin perturbation also trips
the per-course contribution-sum reconciliation (delta −500) alongside
the contribution-margin-formula check (delta +500). -/
theorem inconsistent_margin_single_issue_cex :
    (validateSettlement sInflated).length = 2 ∧
    (validateSettlement sInflated).length ≠ 1 ∧
    (validateSettlement sInflated).map ValidationIssue.field =
      ["공헌이익", "공헌이익 공식"] := by
  have hfield : (validateSettlement sInflated).map ValidationIssue.field =
      ["공헌이익", "공헌이익 공식"] := by
    norm_num [validateSettlement, revenueSumCheck, adCostSumCheck, contributionSumCheck,
      contributionFormulaCheck, settlementAmountCheck, courseContributionCheck, courseIssue,
      sumRevenue, sumAdCost, sumContribution, threshold, jsRound_eq_floor, Int.floor_eq_iff,
      List.foldl, sInflated]
  have hlen : (validateSettlement sInflated).length = 2 := by
    have := congrArg List.length hfield
    simpa using this
  exact ⟨hlen, by rw [hlen]; norm_num, hfield⟩

/-- C8: determinism and idempotence: the cross-validator and the edit
recompute are pure functions of their inputs — equal inputs give equal
issue lists (all fields, including deltas and messages) and equal page
states — and re-running the validator on the stored settlement reproduces
the stored issue list. -/
theorem computation_deterministic_idempotent (s₁ s₂ : CompanySettlement)
    (fd₁ fd₂ : ParseResponse) (cid₁ cid₂ : String) (cs₁ cs₂ : List CourseSummary)
    (hs : s₁ = s₂) (hfd : fd₁ = fd₂) (hcid : cid₁ = cid₂) (hcs : cs₁ = cs₂) :
    validateSettlement s₁ = validateSettlement s₂ ∧
    handleApplyEdits s₁ fd₁ cid₁ cs₁ = handleApplyEdits s₂ fd₂ cid₂ cs₂ ∧
    (handleApplyEdits s₁ fd₁ cid₁ cs₁).validationIssues =
      validateSettlement (handleApplyEdits s₁ fd₁ cid₁ cs₁).settlement := by
  subst hs
  subst hfd
  subst hcid
  subst hcs
  exact ⟨rfl, rfl, rfl⟩

/-- A one-company parse response used by the state-level witnesses. -/
def fdBase : ParseResponse :=
  { period := "2024-Q4"
    companies := [("plusx", sBase)]
    summary := { total_revenue := 0, total_ad_cost := 0, total_contribution := 0,
                 total_settlement := 0 } }

/-- Witness for C8 at concrete inputs. -/
theorem computation_deterministic_idempotent_witness :
    validateSettlement sBase = validateSettlement sBase ∧
    handleApplyEdits sBase fdBase "plusx" csConserve =
      handleApplyEdits sBase fdBase "plusx" csConserve ∧
    (handleApplyEdits sBase fdBase "plusx" csConserve).validationIssues =
      validateSettlement (handleApplyEdits sBase fdBase "plusx" csConserve).settlement :=
  computation_deterministic_idempotent sBase sBase fdBase fdBase "plusx" "plusx"
    csConserve csConserve rfl rfl rfl rfl

/-- C9: validation is total and never blocking: every settlement yields a
well-defined (possibly empty) issue list, and in the edit-apply path the
stored settlement and full data are exactly the recomputed records —
validation only annotates; in particular a non-empty issue list leaves the
stored settlement unchanged. -/
theorem validation_never_blocking (s : CompanySettlement) (fd : ParseResponse)
    (cid : String) (cs : List CourseSummary) :
    (∃ issues : List ValidationIssue, validateSettlement s = issues) ∧
    (handleApplyEdits s fd cid cs).settlement = applyEditsSettlement s cs ∧
    (handleApplyEdits s fd cid cs).fullData =
      applyEditsFullData fd cid (applyEditsSettlement s cs) ∧
    (validateSettlement (applyEditsSettlement s cs) ≠ [] →
      (handleApplyEdits s fd cid cs).settlement = applyEditsSettlement s cs) :=
  ⟨⟨validateSettlement s, rfl⟩, rfl, rfl, fun _ => rfl⟩

/-- A course list that violates the per-course margin identity, so that
the recomputed settlement fails validation. -/
def csBad : List CourseSummary :=
  [{ course_id := "bad", course_name := "강의Bad", revenue := 0, ad_cost := 0,
     contribution := 500, revenue_share := 0, sectionName := "", rs_ratio := 1/2 }]

/-- Witness for C9: even though the recomputed settlement over `csBad`
produces validation issues, the stored settlement is the recomputed
record, unchanged. -/
theorem validation_never_blocking_witness :
    (handleApplyEdits sBase fdBase "plusx" csBad).settlement =
      applyEditsSettlement sBase csBad :=
  (validation_never_blocking sBase fdBase "plusx" csBad).2.2.2 (by
    have hfield : (validateSettlement (applyEditsSettlement sBase csBad)).map
        ValidationIssue.field = ["공헌이익 공식", "[강의Bad] 공헌이익"] := by
      norm_num [validateSettlement, revenueSumCheck, adCostSumCheck, contributionSumCheck,
        contributionFormulaCheck, settlementAmountCheck, courseContributionCheck,
        courseIssue, applyEditsSettlement, sumRevenue, sumAdCost, sumContribution,
        threshold, jsRound_eq_floor, Int.floor_eq_iff, List.foldl, csBad, sBase]
      rfl
    intro hnil
    rw [hnil] at hfield
    simp at hfield)

/-- C10: frame property of the edit-apply step on the companies map: only
the edited company's entry is replaced — every other id resolves to its
old record — and each summary total equals the sum of that field over the
updated map. -/
theorem apply_edits_frame_and_summary (fd : ParseResponse) (cid : String)
    (s' : CompanySettlement) :
    (applyEditsFullData fd cid s').companies = setCompany fd.companies cid s' ∧
    (∀ id, id ≠ cid →
      lookupCompany (applyEditsFullData fd cid s').companies id =
        lookupCompany fd.companies id) ∧
    lookupCompany (applyEditsFullData fd cid s').companies cid = some s' ∧
    (applyEditsFullData fd cid s').summary.total_revenue =
      ((applyEditsFullData fd cid s').companies.map (fun p => p.2.revenue)).sum ∧
    (applyEditsFullData fd cid s').summary.total_ad_cost =
      ((applyEditsFullData fd cid s').companies.map (fun p => p.2.ad_cost)).sum ∧
    (applyEditsFullData fd cid s').summary.total_contribution =
      ((applyEditsFullData fd cid s').companies.map (fun p => p.2.contribution)).sum ∧
    (applyEditsFullData fd cid s').summary.total_settlement =
      ((applyEditsFullData fd cid s').companies.map (fun p => p.2.settlement_amount)).sum := by
  refine ⟨rfl, ?_, lookupCompany_setCompany_self fd.companies cid s', ?_, ?_, ?_, ?_⟩
  · intro id hid
    exact lookupCompany_setCompany_ne fd.companies cid id s' hid
  · simpa using foldl_add_eq_sum (fun p => p.2.revenue) (setCompany fd.companies cid s') 0
  · simpa using foldl_add_eq_sum (fun p => p.2.ad_cost) (setCompany fd.companies cid s') 0
  · simpa using foldl_add_eq_sum (fun p => p.2.contribution) (setCompany fd.companies cid s') 0
  · simpa using
      foldl_add_eq_sum (fun p => p.2.settlement_amount) (setCompany fd.companies cid s') 0

/-- A two-company parse response for the frame witness. -/
def fdTwo : ParseResponse :=
  { period := "2024-Q4"
    companies := [("plusx", sBase), ("huskyfox", sTolerance)]
    summary := { total_revenue := 2, total_ad_cost := 2, total_contribution := 2,
                 total_settlement := 1 } }

/-- Witness for C10: editing `plusx` leaves the stored `huskyfox` record
untouched. -/
theorem apply_edits_frame_and_summary_witness :
    lookupCompany (applyEditsFullData fdTwo "plusx" sInflated).companies "huskyfox" =
      lookupCompany fdTwo.companies "huskyfox" :=
  (apply_edits_frame_and_summary fdTwo "plusx" sInflated).2.1 "huskyfox" (by decide)
